import Mathlib

/-!
# Verification of the `lovely` parser (`src/parser/mod.rs`)

A shallow embedding of the repository's Pratt parser. The lexer is an
external collaborator: the parser is modelled as a function of the source
text together with the token stream (a list of `(kind, span)` pairs), which
is exactly the interface the Rust code consumes through `Peekable<Lexer>`.

Rust's `&mut self` state is threaded explicitly: every parser operation maps
a `Parser` state to a `PResult`, which records success (with the new state),
an `Error` (with the state at the point of failure, as the caller's `&mut`
borrow would observe it), a process abort (`panic`, produced by the
`unwrap()` in `expect_int`), or fuel exhaustion (an artifact of embedding
Rust's general recursion as fuel-indexed recursion; no claim is about it).
-/

namespace Lovely

/-- Byte-offset span `[start, stop)` into the source text. The Rust field
`end` is called `stop` here (`end` is a Lean keyword). The `span` module is
not under `src/`; the structure and operations are those the parser uses. -/
structure Span where
  start : Nat
  stop : Nat
  deriving Repr, DecidableEq

/-- `Span::from_range(start, end)`. -/
def Span.from_range (start stop : Nat) : Span := ⟨start, stop⟩

/-- Modelled from the spec: `Span::slice` extracts "the substring it
denotes" from the source (`&source[start..end]` by bytes). All claim inputs
are ASCII, where byte indices and character indices agree. -/
def Span.slice (s : Span) (src : String) : String :=
  String.mk ((src.data.drop s.start).take (s.stop - s.start))

/-- Token kinds, exactly the ones the parser matches on
(`crate::lexer::tokens::TokenKind`; the lexer module is not under `src/`,
but the parser names every kind it uses). -/
inductive TokenKind where
  | IntLiteral
  | True
  | False
  | Unit
  | Identifier
  | Fun
  | LParen
  | RParen
  | LBrace
  | RBrace
  | Comma
  | Colon
  | Semicolon
  | Tilde
  | ExclamationMark
  | Plus
  | Minus
  | Asterisk
  | Slash
  | GreaterThan
  | LessThan
  | GreaterThanOrEqual
  | LessThanOrEqual
  | DoubleEqual
  | NotEqual
  | SingleEqual
  | Eof
  deriving Repr, DecidableEq

/-- Modelled from the spec: the `Display` impl for `TokenKind` lives in the
missing lexer module. Operator and punctuation tokens display as their
source symbol (the spec lists them as symbols); no claim is decided by the
exact text of an error message. -/
def TokenKind.toString : TokenKind → String
  | .IntLiteral => "int literal"
  | .True => "true"
  | .False => "false"
  | .Unit => "unit"
  | .Identifier => "identifier"
  | .Fun => "fun"
  | .LParen => "("
  | .RParen => ")"
  | .LBrace => "\x7b"
  | .RBrace => "\x7d"
  | .Comma => ","
  | .Colon => ":"
  | .Semicolon => ";"
  | .Tilde => "~"
  | .ExclamationMark => "!"
  | .Plus => "+"
  | .Minus => "-"
  | .Asterisk => "*"
  | .Slash => "/"
  | .GreaterThan => ">"
  | .LessThan => "<"
  | .GreaterThanOrEqual => ">="
  | .LessThanOrEqual => "<="
  | .DoubleEqual => "=="
  | .NotEqual => "!="
  | .SingleEqual => "="
  | .Eof => "eof"

/-- A lexer token: `(kind, span)`. -/
structure Token where
  kind : TokenKind
  span : Span
  deriving Repr, DecidableEq

/-- `parser::Error`, verbatim from `src/parser/mod.rs`. -/
inductive Error where
  | NoToken
  | NoPrefixParseFn : TokenKind → Error
  | Expected : String → String → Error
  | Syntax : String → Error
  | UnexpectedEof
  deriving Repr, DecidableEq

/-- `Error::expected(expected, got)`. -/
def Error.expected (e g : String) : Error := Error.Expected e g

/-- `Error::syntax_err(s)` = `Syntax(format!("syntax error: {s}"))`. -/
def Error.syntax_err (s : String) : Error := Error.Syntax ("syntax error: " ++ s)

/-- Modelled from the spec: the AST module (`parser/ast.rs`) is not under
`src/`; `Precedence` is the total order the spec gives, ascending
`Lowest < Equality < Comparison < Sum < Product < Prefix < Group`,
compared (as Rust's derived `Ord` on a fieldless enum) by declaration
order. -/
inductive Precedence where
  | Lowest
  | Equality
  | Comparison
  | Sum
  | Product
  | Prefix
  | Group
  deriving Repr, DecidableEq

/-- Rank realising the derived `Ord` on `Precedence` (declaration order). -/
def Precedence.rank : Precedence → Nat
  | .Lowest => 0
  | .Equality => 1
  | .Comparison => 2
  | .Sum => 3
  | .Product => 4
  | .Prefix => 5
  | .Group => 6

/-- Modelled from the spec: `PrefixOperator` from the missing AST module. -/
inductive PrefixOperator where
  | LogicalNot
  | Negative
  deriving Repr, DecidableEq

/-- Modelled from the spec: `InfixOperator` from the missing AST module. -/
inductive InfixOperator where
  | Plus
  | Minus
  | Multiply
  | Divide
  | GreaterThan
  | LessThan
  | GreaterThanOrEqual
  | LessThanOrEqual
  | Equal
  | NotEqual
  deriving Repr, DecidableEq

/-- Modelled from the spec: `Type` from the missing AST module — "currently
just `Ident(name)`". Named `Type'` (`Type` is reserved in Lean). -/
inductive Type' where
  | Ident : String → Type'
  deriving Repr, DecidableEq

/-- Modelled from the spec: `FunctionParameter` from the missing AST module. -/
inductive FunctionParameter where
  | UnlabeledAtCallsite : String → Type' → FunctionParameter
  | LabeledAtCallsite : String → Option String → Type' → FunctionParameter
  deriving Repr, DecidableEq

mutual
/-- Modelled from the spec: `Expression {kind, span}` from the missing AST
module (its shape is fixed by every construction site in the parser). -/
inductive Expression where
  | mk : ExpressionKind → Span → Expression

/-- Modelled from the spec: `ExpressionKind` from the missing AST module.
`Infix` fields are ordered `left, operator, right` as at the parser's
construction site. `VariableDecl` fields: `name, value, mutable, ty`. -/
inductive ExpressionKind where
  | IntLiteral : Int → ExpressionKind
  | BoolLiteral : Bool → ExpressionKind
  | Unit : ExpressionKind
  | Ident : String → ExpressionKind
  | Prefix : PrefixOperator → Expression → ExpressionKind
  | Infix : Expression → InfixOperator → Expression → ExpressionKind
  | VariableDecl : String → Expression → Bool → Option Type' → ExpressionKind
  | Function : List FunctionParameter → Option Type' → List ExpressionStatement → ExpressionKind
  | FunctionCall : String → List FunctionArgument → ExpressionKind

/-- Modelled from the spec: `ExpressionStatement {expr, discarded}`. -/
inductive ExpressionStatement where
  | mk : Expression → Bool → ExpressionStatement

/-- Modelled from the spec: `FunctionArgument {label?, value}`. -/
inductive FunctionArgument where
  | mk : Option String → Expression → FunctionArgument
end

/-- `Expression::new(kind, span)` — field accessor `kind`. -/
def Expression.kind : Expression → ExpressionKind
  | .mk k _ => k

/-- Field accessor `span`. -/
def Expression.span : Expression → Span
  | .mk _ s => s

/-- `Program(Vec<ExpressionStatement>)`. -/
structure Program where
  stmts : List ExpressionStatement

/-- Parser state: the owned source text and the remaining token stream
(`Peekable<Lexer>` exposed as the list of not-yet-consumed tokens). -/
structure Parser where
  source : String
  lexer : List Token

/-- Outcome of one parser operation on a state. -/
inductive PResult (α : Type) where
  | ok : α → Parser → PResult α
  | err : Error → Parser → PResult α
  | panic : PResult α
  | outOfFuel : PResult α

/-- The parser monad: explicit state passing over `Parser`. -/
def M (α : Type) : Type := Parser → PResult α

def M.pure (a : α) : M α := fun p => .ok a p

def M.bind (x : M α) (f : α → M β) : M β := fun p =>
  match x p with
  | .ok a p' => f a p'
  | .err e q => .err e q
  | .panic => .panic
  | .outOfFuel => .outOfFuel

instance : Monad M where
  pure := M.pure
  bind := M.bind

/-- `return Err(e)` followed by `?`-propagation. -/
def throwE (e : Error) : M α := fun p => .err e p

/-- The kind `peek_kind` reports: next token's kind, or `Eof` sentinel. -/
def peekKindOf (p : Parser) : TokenKind :=
  match p.lexer with
  | [] => TokenKind.Eof
  | t :: _ => t.kind

/-- `Parser::peek_kind`. -/
def peek_kind : M TokenKind := fun p => .ok (peekKindOf p) p

/-- `self.lexer.next()`. -/
def lexer_next : M (Option Token) := fun p =>
  match p.lexer with
  | [] => .ok none p
  | t :: ts => .ok (some t) ⟨p.source, ts⟩

/-- `Parser::expect_token`: consumes the next token unconditionally, then
checks its kind. -/
def expect_token (kind : TokenKind) : M Span := fun p =>
  match p.lexer with
  | [] => .err Error.UnexpectedEof p
  | tok :: ts =>
      if tok.kind = kind then .ok tok.span ⟨p.source, ts⟩
      else .err (Error.syntax_err ("unexpected token: " ++ tok.kind.toString)) ⟨p.source, ts⟩

/-- Digit-string value, `none` unless nonempty and all ASCII digits. -/
def digitsToNat : List Char → Option Nat
  | [] => none
  | cs => cs.foldl (fun acc c =>
      match acc with
      | none => none
      | some n => if c.isDigit then some (n * 10 + (c.toNat - 48)) else none)
      (some 0)

/-- Rust `str::parse::<isize>` on a 64-bit target: optional sign, one or
more ASCII digits, value within `[-2^63, 2^63 - 1]`; `Err` otherwise
(including overflow). -/
def parseIsize (s : String) : Option Int :=
  match s.data with
  | '+' :: rest =>
      (digitsToNat rest).bind fun n =>
        if n ≤ 2 ^ 63 - 1 then some (Int.ofNat n) else none
  | '-' :: rest =>
      (digitsToNat rest).bind fun n =>
        if n ≤ 2 ^ 63 then some (-(Int.ofNat n)) else none
  | _ =>
      (digitsToNat s.data).bind fun n =>
        if n ≤ 2 ^ 63 - 1 then some (Int.ofNat n) else none

/-- `Parser::expect_int`: peeks; on an `IntLiteral` consumes it and runs
`span.slice(&self.source).parse().unwrap()` — the `unwrap()` aborts the
process (`panic`) when the text does not parse as an `isize`. -/
def expect_int : M (Int × Span) := fun p =>
  match p.lexer with
  | [] => .err Error.UnexpectedEof p
  | tok :: ts =>
      if tok.kind = TokenKind.IntLiteral then
        match parseIsize (tok.span.slice p.source) with
        | some n => .ok (n, tok.span) ⟨p.source, ts⟩
        | none => .panic
      else .err (Error.expected "int literal" tok.kind.toString) p

/-- `Parser::expect_ident`: peeks; consumes only when it is an identifier. -/
def expect_ident : M (String × Span) := fun p =>
  match p.lexer with
  | [] => .err Error.UnexpectedEof p
  | tok :: ts =>
      if tok.kind = TokenKind.Identifier then
        .ok (tok.span.slice p.source, tok.span) ⟨p.source, ts⟩
      else .err (Error.expected "identifier" tok.kind.toString) p

/-- The precedence table inside `Parser::cur_precedence`. -/
def tokenPrecedence : TokenKind → Precedence
  | .DoubleEqual | .NotEqual => Precedence.Equality
  | .LessThan | .GreaterThan | .LessThanOrEqual | .GreaterThanOrEqual => Precedence.Comparison
  | .Plus | .Minus => Precedence.Sum
  | .Asterisk | .Slash => Precedence.Product
  | .LParen => Precedence.Group
  | _ => Precedence.Lowest

/-- `Parser::cur_precedence` (always `Ok` in the source). -/
def cur_precedence : M Precedence := fun p => .ok (tokenPrecedence (peekKindOf p)) p

/-- `Parser::check_semicolon` (always `Ok` in the source). -/
def check_semicolon : M Bool := fun p => .ok (decide (peekKindOf p = TokenKind.Semicolon)) p

/-- `Parser::parse_int_literal`. -/
def parse_int_literal : M Expression := do
  let (num, span) ← expect_int
  pure (Expression.mk (ExpressionKind.IntLiteral num) span)

/-- `Parser::parse_bool_literal`. -/
def parse_bool_literal : M Expression := do
  let k ← peek_kind
  match k with
  | .True => do
      let span ← expect_token .True
      pure (Expression.mk (ExpressionKind.BoolLiteral true) span)
  | .False => do
      let span ← expect_token .False
      pure (Expression.mk (ExpressionKind.BoolLiteral false) span)
  | tok => throwE (Error.expected "true or false" tok.toString)

/-- `Parser::parse_unit`. -/
def parse_unit : M Expression := do
  let span ← expect_token .Unit
  pure (Expression.mk ExpressionKind.Unit span)

/-- `Parser::parse_variable_ident`. -/
def parse_variable_ident (name : String) (span : Span) : M Expression :=
  M.pure (Expression.mk (ExpressionKind.Ident name) span)

/-- `Parser::parse_type`. -/
def parse_type : M Type' := do
  let (name, _) ← expect_ident
  pure (Type'.Ident name)

/-- `Parser::parse_function_parameter`. -/
def parse_function_parameter : M FunctionParameter := do
  let k ← peek_kind
  match k with
  | .Tilde => do
      let _ ← expect_token .Tilde
      let (name, _) ← expect_ident
      let _ ← expect_token .Colon
      let ty ← parse_type
      pure (FunctionParameter.UnlabeledAtCallsite name ty)
  | .Identifier => do
      let (first, _) ← expect_ident
      let k2 ← peek_kind
      let second ← (match k2 with
        | .Identifier => do
            let (name, _) ← expect_ident
            M.pure (some name)
        | _ => M.pure (none : Option String))
      let _ ← expect_token .Colon
      let ty ← parse_type
      match second with
      | some second_ident =>
          pure (FunctionParameter.LabeledAtCallsite second_ident (some first) ty)
      | none =>
          pure (FunctionParameter.LabeledAtCallsite first none ty)
  | tok => throwE (Error.expected "parameter name" tok.toString)

mutual

/-- `Parser::parse_expression`: prefix dispatch, then the precedence loop. -/
def parse_expression (fuel : Nat) (precedence : Precedence) : M Expression :=
  match fuel with
  | 0 => fun _ => .outOfFuel
  | fuel + 1 => do
      let e ← prefix_parse_fn fuel
      parse_expression_loop fuel precedence e

/-- The `while self.cur_precedence()? > precedence` loop of
`Parser::parse_expression`, with `expr` the accumulator. -/
def parse_expression_loop (fuel : Nat) (precedence : Precedence) (expr : Expression) :
    M Expression :=
  match fuel with
  | 0 => fun _ => .outOfFuel
  | fuel + 1 => do
      let pr ← cur_precedence
      if pr.rank > precedence.rank then do
        let k ← peek_kind
        match k with
        | .IntLiteral => throwE (Error.syntax_err "consecutive ints")
        | .Eof => M.pure expr
        | .Plus => do
            let e ← parse_infix_expression fuel expr InfixOperator.Plus Precedence.Sum
            parse_expression_loop fuel precedence e
        | .Minus => do
            let e ← parse_infix_expression fuel expr InfixOperator.Minus Precedence.Sum
            parse_expression_loop fuel precedence e
        | .Asterisk => do
            let e ← parse_infix_expression fuel expr InfixOperator.Multiply Precedence.Product
            parse_expression_loop fuel precedence e
        | .Slash => do
            let e ← parse_infix_expression fuel expr InfixOperator.Divide Precedence.Product
            parse_expression_loop fuel precedence e
        | .GreaterThan => do
            let e ← parse_infix_expression fuel expr InfixOperator.GreaterThan
              Precedence.Comparison
            parse_expression_loop fuel precedence e
        | .LessThan => do
            let e ← parse_infix_expression fuel expr InfixOperator.LessThan Precedence.Comparison
            parse_expression_loop fuel precedence e
        | .GreaterThanOrEqual => do
            let e ← parse_infix_expression fuel expr InfixOperator.GreaterThanOrEqual
              Precedence.Comparison
            parse_expression_loop fuel precedence e
        | .LessThanOrEqual => do
            let e ← parse_infix_expression fuel expr InfixOperator.LessThanOrEqual
              Precedence.Comparison
            parse_expression_loop fuel precedence e
        | .DoubleEqual => do
            let e ← parse_infix_expression fuel expr InfixOperator.Equal Precedence.Equality
            parse_expression_loop fuel precedence e
        | .NotEqual => do
            let e ← parse_infix_expression fuel expr InfixOperator.NotEqual Precedence.Equality
            parse_expression_loop fuel precedence e
        | tok => throwE (Error.syntax_err ("invalid operator: " ++ tok.toString))
      else M.pure expr

/-- `Parser::prefix_parse_fn` fused with its immediate application at the
single call site (`self.prefix_parse_fn()?(self)?`): the `Identifier` case
consumes the identifier inside `prefix_parse_fn` itself, before the
returned closure runs. -/
def prefix_parse_fn (fuel : Nat) : M Expression :=
  match fuel with
  | 0 => fun _ => .outOfFuel
  | fuel + 1 => do
      let k ← peek_kind
      match k with
      | .IntLiteral => parse_int_literal
      | .True | .False => parse_bool_literal
      | .Unit => parse_unit
      | .LParen => parse_grouped_expression fuel
      | .Identifier => do
          let (name, span) ← expect_ident
          let k2 ← peek_kind
          match k2 with
          | .Colon => parse_variable_declaration fuel name span.start
          | .LParen => parse_function_call fuel name span.start
          | _ => parse_variable_ident name span
      | .Fun => parse_function_expression fuel
      | .ExclamationMark => parse_prefix_expression fuel PrefixOperator.LogicalNot
      | .Minus => parse_prefix_expression fuel PrefixOperator.Negative
      | tok => throwE (Error.NoPrefixParseFn tok)

/-- `Parser::parse_prefix_expression`. -/
def parse_prefix_expression (fuel : Nat) (operator : PrefixOperator) : M Expression :=
  match fuel with
  | 0 => fun _ => .outOfFuel
  | fuel + 1 => do
      let sp ← expect_token (match operator with
        | .LogicalNot => TokenKind.ExclamationMark
        | .Negative => TokenKind.Minus)
      let expr ← parse_expression fuel Precedence.Prefix
      pure (Expression.mk (ExpressionKind.Prefix operator expr)
        (Span.from_range sp.start expr.span.stop))

/-- `Parser::parse_infix_expression`: consumes the operator token, parses
the right-hand side at the operator's own precedence, folds an `Infix`. -/
def parse_infix_expression (fuel : Nat) (lhs : Expression) (operator : InfixOperator)
    (precedence : Precedence) : M Expression :=
  match fuel with
  | 0 => fun _ => .outOfFuel
  | fuel + 1 => do
      let _ ← lexer_next
      let rhs ← parse_expression fuel precedence
      pure (Expression.mk (ExpressionKind.Infix lhs operator rhs)
        (Span.from_range lhs.span.start rhs.span.stop))

/-- `Parser::parse_grouped_expression`. -/
def parse_grouped_expression (fuel : Nat) : M Expression :=
  match fuel with
  | 0 => fun _ => .outOfFuel
  | fuel + 1 => do
      let sp ← expect_token .LParen
      let expr ← parse_expression fuel Precedence.Lowest
      let k ← peek_kind
      match k with
      | .RParen => do
          let sp2 ← expect_token .RParen
          pure (Expression.mk expr.kind (Span.from_range sp.start sp2.stop))
      | tok => throwE (Error.expected ")" tok.toString)

/-- `Parser::parse_function_call`. -/
def parse_function_call (fuel : Nat) (fn_name : String) (start_position : Nat) : M Expression :=
  match fuel with
  | 0 => fun _ => .outOfFuel
  | fuel + 1 => do
      let _ ← expect_token .LParen
      let arguments ← parse_call_args fuel []
      let end_span ← expect_token .RParen
      pure (Expression.mk (ExpressionKind.FunctionCall fn_name arguments)
        (Span.from_range start_position end_span.stop))

/-- The argument loop of `Parser::parse_function_call`:
`while peek != RParen { push arg; if peek == Comma { consume; continue } else break }`. -/
def parse_call_args (fuel : Nat) (acc : List FunctionArgument) : M (List FunctionArgument) :=
  match fuel with
  | 0 => fun _ => .outOfFuel
  | fuel + 1 => do
      let k ← peek_kind
      if k = TokenKind.RParen then M.pure acc
      else do
        let a ← parse_function_argument fuel
        let k2 ← peek_kind
        if k2 = TokenKind.Comma then do
          let _ ← expect_token .Comma
          parse_call_args fuel (acc ++ [a])
        else M.pure (acc ++ [a])

/-- `Parser::parse_function_argument`: a leading identifier is consumed;
only when a `:` follows is the value a full expression (labeled) — an
identifier not followed by `:` becomes the value on its own. -/
def parse_function_argument (fuel : Nat) : M FunctionArgument :=
  match fuel with
  | 0 => fun _ => .outOfFuel
  | fuel + 1 => fun p =>
      match p.lexer with
      | [] => .err Error.UnexpectedEof p
      | tok :: _ =>
          (if tok.kind = TokenKind.Identifier then do
            let (name, _) ← expect_ident
            let k2 ← peek_kind
            if k2 = TokenKind.Colon then do
              let _ ← expect_token .Colon
              let value ← parse_expression fuel Precedence.Lowest
              pure (FunctionArgument.mk (some name) value)
            else
              M.pure (FunctionArgument.mk none (Expression.mk (ExpressionKind.Ident name) tok.span))
          else do
            let value ← parse_expression fuel Precedence.Lowest
            pure (FunctionArgument.mk none value)) p

/-- `Parser::parse_variable_declaration`. -/
def parse_variable_declaration (fuel : Nat) (name : String) (start_position : Nat) :
    M Expression :=
  match fuel with
  | 0 => fun _ => .outOfFuel
  | fuel + 1 => do
      let _ ← expect_token .Colon
      let k ← peek_kind
      let ty ← (if k = TokenKind.Identifier ∨ k = TokenKind.Fun then do
          let t ← parse_type
          M.pure (some t)
        else M.pure (none : Option Type'))
      let k2 ← peek_kind
      match k2 with
      | .Colon => do
          let _ ← expect_token .Colon
          let value ← parse_expression fuel Precedence.Lowest
          pure (Expression.mk
            (ExpressionKind.VariableDecl name value false ty)
            (Span.from_range start_position value.span.stop))
      | .SingleEqual => do
          let _ ← expect_token .SingleEqual
          let value ← parse_expression fuel Precedence.Lowest
          pure (Expression.mk
            (ExpressionKind.VariableDecl name value true ty)
            (Span.from_range start_position value.span.stop))
      | tok => throwE (Error.expected ": or =" tok.toString)

/-- `Parser::parse_function_expression`. -/
def parse_function_expression (fuel : Nat) : M Expression :=
  match fuel with
  | 0 => fun _ => .outOfFuel
  | fuel + 1 => do
      let start_span ← expect_token .Fun
      let _ ← expect_token .LParen
      let parameters ← parse_params_loop fuel []
      let _ ← expect_token .RParen
      let k ← peek_kind
      let return_type ← (match k with
        | .Identifier => do
            let t ← parse_type
            M.pure (some t)
        | _ => M.pure (none : Option Type'))
      let _ ← expect_token .LBrace
      let body ← parse_body_loop fuel []
      let end_span ← expect_token .RBrace
      pure (Expression.mk
        (ExpressionKind.Function parameters return_type body)
        (Span.from_range start_span.start end_span.stop))

/-- The parameter loop of `Parser::parse_function_expression`. -/
def parse_params_loop (fuel : Nat) (acc : List FunctionParameter) :
    M (List FunctionParameter) :=
  match fuel with
  | 0 => fun _ => .outOfFuel
  | fuel + 1 => do
      let k ← peek_kind
      if k = TokenKind.RParen then M.pure acc
      else do
        let a ← parse_function_parameter
        let k2 ← peek_kind
        if k2 = TokenKind.Comma then do
          let _ ← expect_token .Comma
          parse_params_loop fuel (acc ++ [a])
        else M.pure (acc ++ [a])

/-- The body loop of `Parser::parse_function_expression`:
`while peek != RBrace { push statement }`. -/
def parse_body_loop (fuel : Nat) (acc : List ExpressionStatement) :
    M (List ExpressionStatement) :=
  match fuel with
  | 0 => fun _ => .outOfFuel
  | fuel + 1 => do
      let k ← peek_kind
      if k = TokenKind.RBrace then M.pure acc
      else do
        let s ← parse_expression_statement fuel
        parse_body_loop fuel (acc ++ [s])

/-- `Parser::parse_expression_statement`. -/
def parse_expression_statement (fuel : Nat) : M ExpressionStatement :=
  match fuel with
  | 0 => fun _ => .outOfFuel
  | fuel + 1 => do
      let expr ← parse_expression fuel Precedence.Lowest
      let has_semicolon ← check_semicolon
      if has_semicolon then do
        let _ ← lexer_next
        pure (ExpressionStatement.mk expr true)
      else
        pure (ExpressionStatement.mk expr false)

/-- The `while self.lexer.peek().is_some()` loop of `Parser::parse`. -/
def parse_program_loop (fuel : Nat) (acc : List ExpressionStatement) : M Program :=
  match fuel with
  | 0 => fun _ => .outOfFuel
  | fuel + 1 => fun p =>
      match p.lexer with
      | [] => .ok (Program.mk acc) p
      | _ :: _ =>
          (do
            let s ← parse_expression_statement fuel
            parse_program_loop fuel (acc ++ [s])) p

end

/-- `Parser::parse`, the public entry point. -/
def parse (fuel : Nat) : M Program := parse_program_loop fuel []

/-- `Parser::new(source)` together with the external lexer's output. -/
def Parser.new (source : String) (tokens : List Token) : Parser := ⟨source, tokens⟩

/-! ## Run lemmas for the state monad -/

theorem M_bind_ok {α β : Type} {x : M α} {f : α → M β} {p p' : Parser} {a : α}
    (h : x p = .ok a p') : (x >>= f) p = f a p' := by
  show M.bind x f p = f a p'
  unfold M.bind
  rw [h]

theorem peek_kind_run (p : Parser) : peek_kind p = .ok (peekKindOf p) p := rfl

theorem cur_precedence_run (p : Parser) :
    cur_precedence p = .ok (tokenPrecedence (peekKindOf p)) p := rfl

theorem pure_run {α : Type} (a : α) (p : Parser) : (pure a : M α) p = .ok a p := rfl

theorem Mpure_run {α : Type} (a : α) (p : Parser) : (M.pure a : M α) p = .ok a p := rfl

/-! ## Concrete token streams used by the claims

Each list is the lexer's output for the source written in the comment;
spans are the byte offsets of each token in that source. -/

/-- Tokens of `"1 2"`. -/
def toks_one_two : List Token :=
  [⟨.IntLiteral, ⟨0, 1⟩⟩, ⟨.IntLiteral, ⟨2, 3⟩⟩]

/-- Tokens of `"99999999999999999999"` (20 digits, exceeds `isize::MAX`). -/
def toks_overflow : List Token := [⟨.IntLiteral, ⟨0, 20⟩⟩]

/-- Tokens of `"1 + 2 * 3"`. -/
def toks_sum_product : List Token :=
  [⟨.IntLiteral, ⟨0, 1⟩⟩, ⟨.Plus, ⟨2, 3⟩⟩, ⟨.IntLiteral, ⟨4, 5⟩⟩, ⟨.Asterisk, ⟨6, 7⟩⟩,
   ⟨.IntLiteral, ⟨8, 9⟩⟩]

/-- Tokens of `"1 - 2 - 3"`. -/
def toks_minus_chain : List Token :=
  [⟨.IntLiteral, ⟨0, 1⟩⟩, ⟨.Minus, ⟨2, 3⟩⟩, ⟨.IntLiteral, ⟨4, 5⟩⟩, ⟨.Minus, ⟨6, 7⟩⟩,
   ⟨.IntLiteral, ⟨8, 9⟩⟩]

/-- Tokens of `"f(x: 1, 2)"`. -/
def toks_labeled_call : List Token :=
  [⟨.Identifier, ⟨0, 1⟩⟩, ⟨.LParen, ⟨1, 2⟩⟩, ⟨.Identifier, ⟨2, 3⟩⟩, ⟨.Colon, ⟨3, 4⟩⟩,
   ⟨.IntLiteral, ⟨5, 6⟩⟩, ⟨.Comma, ⟨6, 7⟩⟩, ⟨.IntLiteral, ⟨8, 9⟩⟩, ⟨.RParen, ⟨9, 10⟩⟩]

/-- Tokens of `"f(a + 1)"`. -/
def toks_call_ident_plus : List Token :=
  [⟨.Identifier, ⟨0, 1⟩⟩, ⟨.LParen, ⟨1, 2⟩⟩, ⟨.Identifier, ⟨2, 3⟩⟩, ⟨.Plus, ⟨4, 5⟩⟩,
   ⟨.IntLiteral, ⟨6, 7⟩⟩, ⟨.RParen, ⟨7, 8⟩⟩]

/-- Tokens of `"f(1 + 2)"`. -/
def toks_call_int_plus : List Token :=
  [⟨.Identifier, ⟨0, 1⟩⟩, ⟨.LParen, ⟨1, 2⟩⟩, ⟨.IntLiteral, ⟨2, 3⟩⟩, ⟨.Plus, ⟨4, 5⟩⟩,
   ⟨.IntLiteral, ⟨6, 7⟩⟩, ⟨.RParen, ⟨7, 8⟩⟩]

/-- Tokens of `"f(a)"`. -/
def toks_call_bare_ident : List Token :=
  [⟨.Identifier, ⟨0, 1⟩⟩, ⟨.LParen, ⟨1, 2⟩⟩, ⟨.Identifier, ⟨2, 3⟩⟩, ⟨.RParen, ⟨3, 4⟩⟩]

/-- Tokens of `"f(1, 2,)"` (trailing comma before `)`). -/
def toks_trailing_comma : List Token :=
  [⟨.Identifier, ⟨0, 1⟩⟩, ⟨.LParen, ⟨1, 2⟩⟩, ⟨.IntLiteral, ⟨2, 3⟩⟩, ⟨.Comma, ⟨3, 4⟩⟩,
   ⟨.IntLiteral, ⟨5, 6⟩⟩, ⟨.Comma, ⟨6, 7⟩⟩, ⟨.RParen, ⟨7, 8⟩⟩]

/-- Tokens of `"a: Int = 1"`. -/
def toks_decl_eq : List Token :=
  [⟨.Identifier, ⟨0, 1⟩⟩, ⟨.Colon, ⟨1, 2⟩⟩, ⟨.Identifier, ⟨3, 6⟩⟩, ⟨.SingleEqual, ⟨7, 8⟩⟩,
   ⟨.IntLiteral, ⟨9, 10⟩⟩]

/-- Tokens of `"(1 + 2) * 3"`. -/
def toks_grouped : List Token :=
  [⟨.LParen, ⟨0, 1⟩⟩, ⟨.IntLiteral, ⟨1, 2⟩⟩, ⟨.Plus, ⟨3, 4⟩⟩, ⟨.IntLiteral, ⟨5, 6⟩⟩,
   ⟨.RParen, ⟨6, 7⟩⟩, ⟨.Asterisk, ⟨8, 9⟩⟩, ⟨.IntLiteral, ⟨10, 11⟩⟩]

/-! ## C5 / C6: precedence and associativity -/

/-- C5: multiplicative operators bind tighter than additive operators:
`"1 + 2 * 3"` parses to `Infix(Plus, 1, Infix(Multiply, 2, 3))`, and the
precedence the table assigns to `*` and `/` (`Product`) is strictly greater
than the one it assigns to `+` and `-` (`Sum`). -/
theorem multiplicative_binds_tighter_than_additive :
    parse 20 (Parser.new "1 + 2 * 3" toks_sum_product) =
      .ok (Program.mk [ExpressionStatement.mk
        (Expression.mk (ExpressionKind.Infix
          (Expression.mk (ExpressionKind.IntLiteral 1) ⟨0, 1⟩)
          InfixOperator.Plus
          (Expression.mk (ExpressionKind.Infix
            (Expression.mk (ExpressionKind.IntLiteral 2) ⟨4, 5⟩)
            InfixOperator.Multiply
            (Expression.mk (ExpressionKind.IntLiteral 3) ⟨8, 9⟩)) ⟨4, 9⟩)) ⟨0, 9⟩) false])
        ⟨"1 + 2 * 3", []⟩ ∧
    Precedence.Sum.rank < Precedence.Product.rank ∧
    tokenPrecedence TokenKind.Asterisk = Precedence.Product ∧
    tokenPrecedence TokenKind.Slash = Precedence.Product ∧
    tokenPrecedence TokenKind.Plus = Precedence.Sum ∧
    tokenPrecedence TokenKind.Minus = Precedence.Sum :=
  ⟨rfl, by decide, rfl, rfl, rfl, rfl⟩

/-- C6: operators of equal precedence associate to the left:
`"1 - 2 - 3"` parses to `Infix(Minus, Infix(Minus, 1, 2), 3)`. -/
theorem equal_precedence_left_associative :
    parse 20 (Parser.new "1 - 2 - 3" toks_minus_chain) =
      .ok (Program.mk [ExpressionStatement.mk
        (Expression.mk (ExpressionKind.Infix
          (Expression.mk (ExpressionKind.Infix
            (Expression.mk (ExpressionKind.IntLiteral 1) ⟨0, 1⟩)
            InfixOperator.Minus
            (Expression.mk (ExpressionKind.IntLiteral 2) ⟨4, 5⟩)) ⟨0, 5⟩)
          InfixOperator.Minus
          (Expression.mk (ExpressionKind.IntLiteral 3) ⟨8, 9⟩)) ⟨0, 9⟩) false])
        ⟨"1 - 2 - 3", []⟩ :=
  rfl

/-! ## C1: consecutive integer literals -/

/-- C1: contrary to the claim, `"1 2"` (two adjacent integer literals with
no operator between them) parses successfully, as two expression
statements. The `IntLiteral => Err(syntax_err("consecutive ints"))` arm
inside `parse_expression`'s loop is unreachable for this input: the loop is
entered only when the next token's precedence strictly exceeds the
threshold, and `cur_precedence` maps `IntLiteral` to `Lowest`, which
exceeds nothing. -/
theorem two_int_literals_parse_as_two_statements :
    parse 20 (Parser.new "1 2" toks_one_two) =
      .ok (Program.mk
        [ExpressionStatement.mk (Expression.mk (ExpressionKind.IntLiteral 1) ⟨0, 1⟩) false,
         ExpressionStatement.mk (Expression.mk (ExpressionKind.IntLiteral 2) ⟨2, 3⟩) false])
        ⟨"1 2", []⟩ ∧
    Precedence.rank (tokenPrecedence TokenKind.IntLiteral) = Precedence.rank Precedence.Lowest :=
  ⟨rfl, rfl⟩

/-! ## C4: totality of `parse` -/

/-- C4: contrary to the claim, `parse` is not panic-free: on an integer
literal whose text does not fit in `isize` (here 20 nines), `expect_int`'s
`span.slice(&self.source).parse().unwrap()` aborts the process. -/
theorem overflowing_int_literal_panics :
    parse 20 (Parser.new "99999999999999999999" toks_overflow) = .panic ∧
    parseIsize "99999999999999999999" = none :=
  ⟨rfl, rfl⟩

/-! ## C2: call-site arguments -/

/-- C2 counterexample: an argument list containing the bare expression
`a + 1` does not parse. The call-argument parser consumes only the
identifier `a`; the `+` that follows is then neither a `,` nor the `)` the
call grammar requires, so the parse fails (and the claim's "parsed as a
full bare expression" is false for identifier-headed arguments). -/
theorem call_argument_bare_expression_counterexample :
    parse 20 (Parser.new "f(a + 1)" toks_call_ident_plus) =
      .err (Error.Syntax "syntax error: unexpected token: +")
        ⟨"f(a + 1)", [⟨.IntLiteral, ⟨6, 7⟩⟩, ⟨.RParen, ⟨7, 8⟩⟩]⟩ :=
  rfl

/-- C2 amended: `"f(x: 1, 2)"` parses to
`FunctionCall{name:"f", arguments:[{label:Some("x"),value:1},{label:None,value:2}]}`;
an argument that does not begin with an identifier (here `1 + 2`) is parsed
as a full bare expression; an argument that is a lone identifier parses as
that identifier — but an identifier-headed argument consumes only the
identifier, so compound expressions beginning with an identifier are not
accepted as arguments (see the counterexample). -/
theorem call_argument_forms :
    parse 20 (Parser.new "f(x: 1, 2)" toks_labeled_call) =
      .ok (Program.mk [ExpressionStatement.mk
        (Expression.mk (ExpressionKind.FunctionCall "f"
          [FunctionArgument.mk (some "x") (Expression.mk (ExpressionKind.IntLiteral 1) ⟨5, 6⟩),
           FunctionArgument.mk none (Expression.mk (ExpressionKind.IntLiteral 2) ⟨8, 9⟩)])
          ⟨0, 10⟩) false]) ⟨"f(x: 1, 2)", []⟩ ∧
    parse 20 (Parser.new "f(1 + 2)" toks_call_int_plus) =
      .ok (Program.mk [ExpressionStatement.mk
        (Expression.mk (ExpressionKind.FunctionCall "f"
          [FunctionArgument.mk none
            (Expression.mk (ExpressionKind.Infix
              (Expression.mk (ExpressionKind.IntLiteral 1) ⟨2, 3⟩)
              InfixOperator.Plus
              (Expression.mk (ExpressionKind.IntLiteral 2) ⟨6, 7⟩)) ⟨2, 7⟩)])
          ⟨0, 8⟩) false]) ⟨"f(1 + 2)", []⟩ ∧
    parse 20 (Parser.new "f(a)" toks_call_bare_ident) =
      .ok (Program.mk [ExpressionStatement.mk
        (Expression.mk (ExpressionKind.FunctionCall "f"
          [FunctionArgument.mk none (Expression.mk (ExpressionKind.Ident "a") ⟨2, 3⟩)])
          ⟨0, 4⟩) false]) ⟨"f(a)", []⟩ :=
  ⟨rfl, rfl, rfl⟩

/-! ## C3: `expect_token` on a kind mismatch -/

/-- C3 counterexample: `expect_token` consumes the offending token. On a
one-token stream whose head is an integer literal, expecting `)` fails —
and the resulting state's stream is empty: the offending token is no longer
the next unconsumed token, contradicting the claim's "without advancing
past the offending token". -/
theorem expect_token_no_advance_counterexample :
    expect_token TokenKind.RParen ⟨"1", [⟨.IntLiteral, ⟨0, 1⟩⟩]⟩ =
      .err (Error.Syntax "syntax error: unexpected token: int literal") ⟨"1", []⟩ :=
  rfl

/-- C3 amended: when the next token's kind does not match, `expect_token`
fails with the mismatch (`Syntax`) error and the stream HAS advanced past
the offending token — `self.lexer.next()` runs before the kind check. -/
theorem expect_token_mismatch_consumes (p : Parser) (tok : Token) (ts : List Token)
    (kind : TokenKind) (hl : p.lexer = tok :: ts) (hk : tok.kind ≠ kind) :
    expect_token kind p =
      .err (Error.syntax_err ("unexpected token: " ++ tok.kind.toString)) ⟨p.source, ts⟩ := by
  obtain ⟨src, lx⟩ := p
  simp only at hl
  subst hl
  unfold expect_token
  simp [hk]

/-- Witness for `expect_token_mismatch_consumes`: expecting `:` when the
next token is `+`. -/
theorem expect_token_mismatch_consumes_witness :
    expect_token TokenKind.Colon ⟨"x", [⟨.Plus, ⟨0, 1⟩⟩]⟩ =
      .err (Error.syntax_err ("unexpected token: " ++ TokenKind.toString TokenKind.Plus))
        ⟨"x", []⟩ :=
  expect_token_mismatch_consumes ⟨"x", [⟨.Plus, ⟨0, 1⟩⟩]⟩ ⟨.Plus, ⟨0, 1⟩⟩ [] TokenKind.Colon
    rfl (by decide)

/-! ## C7: variable declarations -/

/-- C7: in `name ":" typeName (":" expr | "=" expr)`, after the `:` and a
type annotation (next token an identifier), a second `:` yields
`mutable = false` and `=` yields `mutable = true`; the annotation is
recorded in the node; and the node's span runs from `start_position` (the
name's start offset, as passed by `prefix_parse_fn`) to the value
expression's end offset. -/
theorem variable_declaration_mutability_and_span (fuel : Nat) (p p1 p2 p3 p4 : Parser)
    (name : String) (start_position : Nat) (sp sp2 : Span) (ty : Type') (tk : TokenKind)
    (v : Expression)
    (h1 : expect_token TokenKind.Colon p = .ok sp p1)
    (hid : peekKindOf p1 = TokenKind.Identifier)
    (h2 : parse_type p1 = .ok ty p2)
    (htk : tk = TokenKind.Colon ∨ tk = TokenKind.SingleEqual)
    (hpk : peekKindOf p2 = tk)
    (h3 : expect_token tk p2 = .ok sp2 p3)
    (h4 : parse_expression fuel Precedence.Lowest p3 = .ok v p4) :
    parse_variable_declaration (fuel + 1) name start_position p =
      .ok (Expression.mk
        (ExpressionKind.VariableDecl name v (decide (tk = TokenKind.SingleEqual)) (some ty))
        (Span.from_range start_position v.span.stop)) p4 := by
  simp only [parse_variable_declaration]
  rw [M_bind_ok h1]
  rw [M_bind_ok (peek_kind_run p1)]
  rw [hid]
  rw [if_pos (Or.inl rfl : TokenKind.Identifier = TokenKind.Identifier ∨
    TokenKind.Identifier = TokenKind.Fun)]
  rw [M_bind_ok (show (parse_type >>= fun t => M.pure (some t)) p1 = .ok (some ty) p2 by
    rw [M_bind_ok h2]; rfl)]
  rw [M_bind_ok (peek_kind_run p2)]
  rw [hpk]
  rcases htk with rfl | rfl
  · dsimp only
    rw [M_bind_ok h3]
    rw [M_bind_ok h4]
    rfl
  · dsimp only
    rw [M_bind_ok h3]
    rw [M_bind_ok h4]
    rfl

/-- Witness for `variable_declaration_mutability_and_span`: the
`"a: Int = 1"` declaration (entered after `prefix_parse_fn` has consumed
the name `a`, whose span starts at 0) yields
`VariableDecl{name:"a", mutable:true, ty:Some(Int), value:1}` spanning
`[0, 10)`. -/
theorem variable_declaration_mutability_and_span_witness :
    parse_variable_declaration 6 "a" 0
        ⟨"a: Int = 1", [⟨.Colon, ⟨1, 2⟩⟩, ⟨.Identifier, ⟨3, 6⟩⟩, ⟨.SingleEqual, ⟨7, 8⟩⟩,
          ⟨.IntLiteral, ⟨9, 10⟩⟩]⟩ =
      .ok (Expression.mk
        (ExpressionKind.VariableDecl "a" (Expression.mk (ExpressionKind.IntLiteral 1) ⟨9, 10⟩)
          true (some (Type'.Ident "Int")))
        (Span.from_range 0 10)) ⟨"a: Int = 1", []⟩ :=
  variable_declaration_mutability_and_span 5
    ⟨"a: Int = 1", [⟨.Colon, ⟨1, 2⟩⟩, ⟨.Identifier, ⟨3, 6⟩⟩, ⟨.SingleEqual, ⟨7, 8⟩⟩,
      ⟨.IntLiteral, ⟨9, 10⟩⟩]⟩
    ⟨"a: Int = 1", [⟨.Identifier, ⟨3, 6⟩⟩, ⟨.SingleEqual, ⟨7, 8⟩⟩, ⟨.IntLiteral, ⟨9, 10⟩⟩]⟩
    ⟨"a: Int = 1", [⟨.SingleEqual, ⟨7, 8⟩⟩, ⟨.IntLiteral, ⟨9, 10⟩⟩]⟩
    ⟨"a: Int = 1", [⟨.IntLiteral, ⟨9, 10⟩⟩]⟩
    ⟨"a: Int = 1", []⟩
    "a" 0 ⟨1, 2⟩ ⟨7, 8⟩ (Type'.Ident "Int") TokenKind.SingleEqual
    (Expression.mk (ExpressionKind.IntLiteral 1) ⟨9, 10⟩)
    rfl rfl rfl (Or.inr rfl) rfl rfl rfl

/-! ## C8: grouped expressions -/

/-- C8: `"(" expr ")"` parses the inner expression at `Lowest` precedence
and returns an expression whose kind is exactly the inner expression's kind
(no distinct grouping node) and whose span runs from the `(` token's start
offset to the `)` token's end offset. -/
theorem grouped_expression_re_span (fuel : Nat) (p p1 p2 p3 : Parser) (sp sp2 : Span)
    (e : Expression)
    (h1 : expect_token TokenKind.LParen p = .ok sp p1)
    (h2 : parse_expression fuel Precedence.Lowest p1 = .ok e p2)
    (h3 : peekKindOf p2 = TokenKind.RParen)
    (h4 : expect_token TokenKind.RParen p2 = .ok sp2 p3) :
    parse_grouped_expression (fuel + 1) p =
      .ok (Expression.mk e.kind (Span.from_range sp.start sp2.stop)) p3 := by
  simp only [parse_grouped_expression]
  rw [M_bind_ok h1]
  rw [M_bind_ok h2]
  rw [M_bind_ok (peek_kind_run p2)]
  rw [h3]
  dsimp only
  rw [M_bind_ok h4]
  rfl

/-- Witness for `grouped_expression_re_span`: on the token stream of
`"(1 + 2) * 3"`, the grouped expression parses to the inner
`Infix(Plus, 1, 2)` kind re-spanned to `[0, 7)` (the parentheses), leaving
`* 3` unconsumed. -/
theorem grouped_expression_re_span_witness :
    parse_grouped_expression 9 ⟨"(1 + 2) * 3", toks_grouped⟩ =
      .ok (Expression.mk
        (ExpressionKind.Infix
          (Expression.mk (ExpressionKind.IntLiteral 1) ⟨1, 2⟩)
          InfixOperator.Plus
          (Expression.mk (ExpressionKind.IntLiteral 2) ⟨5, 6⟩))
        (Span.from_range 0 7))
        ⟨"(1 + 2) * 3", [⟨.Asterisk, ⟨8, 9⟩⟩, ⟨.IntLiteral, ⟨10, 11⟩⟩]⟩ :=
  grouped_expression_re_span 8 ⟨"(1 + 2) * 3", toks_grouped⟩
    ⟨"(1 + 2) * 3", [⟨.IntLiteral, ⟨1, 2⟩⟩, ⟨.Plus, ⟨3, 4⟩⟩, ⟨.IntLiteral, ⟨5, 6⟩⟩,
      ⟨.RParen, ⟨6, 7⟩⟩, ⟨.Asterisk, ⟨8, 9⟩⟩, ⟨.IntLiteral, ⟨10, 11⟩⟩]⟩
    ⟨"(1 + 2) * 3", [⟨.RParen, ⟨6, 7⟩⟩, ⟨.Asterisk, ⟨8, 9⟩⟩, ⟨.IntLiteral, ⟨10, 11⟩⟩]⟩
    ⟨"(1 + 2) * 3", [⟨.Asterisk, ⟨8, 9⟩⟩, ⟨.IntLiteral, ⟨10, 11⟩⟩]⟩
    ⟨0, 1⟩ ⟨6, 7⟩
    (Expression.mk
      (ExpressionKind.Infix
        (Expression.mk (ExpressionKind.IntLiteral 1) ⟨1, 2⟩)
        InfixOperator.Plus
        (Expression.mk (ExpressionKind.IntLiteral 2) ⟨5, 6⟩)) ⟨1, 6⟩)
    rfl rfl rfl rfl

/-! ## C9: trailing comma in call argument lists -/

/-- C9: a trailing comma is tolerated in call argument lists: after the
comma is consumed the argument loop exits as soon as it sees `)`, returning
exactly the arguments accumulated so far; concretely, `"f(1, 2,)"` parses
to a call with exactly the two arguments written before the trailing
comma. -/
theorem trailing_comma_in_call_arguments (fuel : Nat) (acc : List FunctionArgument)
    (p : Parser) (h : peekKindOf p = TokenKind.RParen) :
    parse_call_args (fuel + 1) acc p = .ok acc p ∧
    parse 20 (Parser.new "f(1, 2,)" toks_trailing_comma) =
      .ok (Program.mk [ExpressionStatement.mk
        (Expression.mk (ExpressionKind.FunctionCall "f"
          [FunctionArgument.mk none (Expression.mk (ExpressionKind.IntLiteral 1) ⟨2, 3⟩),
           FunctionArgument.mk none (Expression.mk (ExpressionKind.IntLiteral 2) ⟨5, 6⟩)])
          ⟨0, 8⟩) false]) ⟨"f(1, 2,)", []⟩ := by
  constructor
  · simp only [parse_call_args]
    rw [M_bind_ok (peek_kind_run p)]
    rw [h]
    rw [if_pos rfl]
    rfl
  · rfl

/-- Witness for `trailing_comma_in_call_arguments`: a state whose next
token is `)` exits the argument loop with the accumulator unchanged. -/
theorem trailing_comma_in_call_arguments_witness :
    parse_call_args 1 [] ⟨")", [⟨.RParen, ⟨0, 1⟩⟩]⟩ =
      .ok [] ⟨")", [⟨.RParen, ⟨0, 1⟩⟩]⟩ ∧
    parse 20 (Parser.new "f(1, 2,)" toks_trailing_comma) =
      .ok (Program.mk [ExpressionStatement.mk
        (Expression.mk (ExpressionKind.FunctionCall "f"
          [FunctionArgument.mk none (Expression.mk (ExpressionKind.IntLiteral 1) ⟨2, 3⟩),
           FunctionArgument.mk none (Expression.mk (ExpressionKind.IntLiteral 2) ⟨5, 6⟩)])
          ⟨0, 8⟩) false]) ⟨"f(1, 2,)", []⟩ :=
  trailing_comma_in_call_arguments 0 [] ⟨")", [⟨.RParen, ⟨0, 1⟩⟩]⟩ rfl

/-! ## C10: the `NoToken` error variant is never produced -/

/-- `m` never fails with `Error::NoToken`. -/
def NN {α : Type} (m : M α) : Prop :=
  ∀ p e q, m p = .err e q → e ≠ Error.NoToken

theorem NN_bind {α β : Type} {x : M α} {f : α → M β}
    (hx : NN x) (hf : ∀ a, NN (f a)) : NN (x >>= f) := by
  intro p e q h
  have hh : M.bind x f p = .err e q := h
  unfold M.bind at hh
  cases hx2 : x p with
  | ok a p' =>
      rw [hx2] at hh
      exact hf a p' e q hh
  | err e' q' =>
      rw [hx2] at hh
      injection hh with h1 h2
      subst h1
      exact hx p e' q' hx2
  | panic => rw [hx2] at hh; cases hh
  | outOfFuel => rw [hx2] at hh; cases hh

theorem NN_outOfFuel {α : Type} : NN (fun _ => (.outOfFuel : PResult α)) := by
  intro p e q h
  cases h

theorem NN_pure {α : Type} (a : α) : NN (pure a : M α) := by
  intro p e q h
  cases h

theorem NN_Mpure {α : Type} (a : α) : NN (M.pure a) := by
  intro p e q h
  cases h

theorem expected_ne_NoToken (a b : String) : Error.expected a b ≠ Error.NoToken := by
  simp [Error.expected]

theorem syntax_err_ne_NoToken (s : String) : Error.syntax_err s ≠ Error.NoToken := by
  simp [Error.syntax_err]

theorem NN_throwE {α : Type} {er : Error} (hne : er ≠ Error.NoToken) : NN (throwE er : M α) := by
  intro p e q h
  have hh : PResult.err er p = .err e q := h
  injection hh with h1 h2
  subst h1
  exact hne

theorem NN_peek_kind : NN peek_kind := by
  intro p e q h
  cases h

theorem NN_cur_precedence : NN cur_precedence := by
  intro p e q h
  cases h

theorem NN_check_semicolon : NN check_semicolon := by
  intro p e q h
  cases h

theorem NN_lexer_next : NN lexer_next := by
  intro p e q h
  obtain ⟨src, lx⟩ := p
  unfold lexer_next at h
  cases lx <;> cases h

theorem NN_expect_token (k : TokenKind) : NN (expect_token k) := by
  intro p e q h
  obtain ⟨src, lx⟩ := p
  unfold expect_token at h
  cases lx with
  | nil =>
      injection h with h1 h2
      subst h1
      decide
  | cons tok ts =>
      dsimp only at h
      split at h
      · cases h
      · injection h with h1 h2
        subst h1
        exact syntax_err_ne_NoToken _

theorem NN_expect_int : NN expect_int := by
  intro p e q h
  obtain ⟨src, lx⟩ := p
  unfold expect_int at h
  cases lx with
  | nil =>
      injection h with h1 h2
      subst h1
      decide
  | cons tok ts =>
      dsimp only at h
      split at h
      · split at h <;> cases h
      · injection h with h1 h2
        subst h1
        exact expected_ne_NoToken _ _

theorem NN_expect_ident : NN expect_ident := by
  intro p e q h
  obtain ⟨src, lx⟩ := p
  unfold expect_ident at h
  cases lx with
  | nil =>
      injection h with h1 h2
      subst h1
      decide
  | cons tok ts =>
      dsimp only at h
      split at h
      · cases h
      · injection h with h1 h2
        subst h1
        exact expected_ne_NoToken _ _

theorem NN_ite {α : Type} {c : Prop} [Decidable c] {A B : M α} (hA : NN A) (hB : NN B) :
    NN (if c then A else B) := by
  by_cases h : c
  · rw [if_pos h]; exact hA
  · rw [if_neg h]; exact hB

theorem NN_parse_int_literal : NN parse_int_literal := by
  unfold parse_int_literal
  apply NN_bind NN_expect_int
  rintro ⟨num, span⟩
  exact NN_pure _

theorem NN_parse_bool_literal : NN parse_bool_literal := by
  unfold parse_bool_literal
  apply NN_bind NN_peek_kind
  intro k
  cases k <;>
    first
      | exact NN_bind (NN_expect_token _) fun sp => NN_pure _
      | exact NN_throwE (expected_ne_NoToken _ _)

theorem NN_parse_unit : NN parse_unit := by
  unfold parse_unit
  exact NN_bind (NN_expect_token _) fun sp => NN_pure _

theorem NN_parse_variable_ident (name : String) (span : Span) :
    NN (parse_variable_ident name span) := NN_Mpure _

theorem NN_parse_type : NN parse_type := by
  unfold parse_type
  apply NN_bind NN_expect_ident
  rintro ⟨name, sp⟩
  exact NN_pure _

theorem NN_parse_function_parameter : NN parse_function_parameter := by
  unfold parse_function_parameter
  apply NN_bind NN_peek_kind
  intro k
  cases k <;>
    first
      | exact NN_throwE (expected_ne_NoToken _ _)
      | (apply NN_bind (NN_expect_token _)
         intro _
         apply NN_bind NN_expect_ident
         rintro ⟨name, sp⟩
         apply NN_bind (NN_expect_token _)
         intro _
         apply NN_bind NN_parse_type
         intro ty
         exact NN_pure _)
      | (apply NN_bind NN_expect_ident
         rintro ⟨first_name, sp⟩
         apply NN_bind NN_peek_kind
         intro k2
         apply NN_bind
         · cases k2 <;>
             first
               | (apply NN_bind NN_expect_ident
                  rintro ⟨name, sp2⟩
                  exact NN_Mpure _)
               | exact NN_Mpure _
         · intro second
           apply NN_bind (NN_expect_token _)
           intro _
           apply NN_bind NN_parse_type
           intro ty
           cases second <;> exact NN_pure _)

/-- Every fueled parsing operation satisfies `NN`: no parse failure is ever
reported as `Error::NoToken`. -/
theorem parser_never_NoToken : ∀ fuel : Nat,
    (∀ pr, NN (parse_expression fuel pr)) ∧
    (∀ pr ex, NN (parse_expression_loop fuel pr ex)) ∧
    NN (prefix_parse_fn fuel) ∧
    (∀ op, NN (parse_prefix_expression fuel op)) ∧
    (∀ l op pr, NN (parse_infix_expression fuel l op pr)) ∧
    NN (parse_grouped_expression fuel) ∧
    (∀ n s, NN (parse_function_call fuel n s)) ∧
    (∀ acc, NN (parse_call_args fuel acc)) ∧
    NN (parse_function_argument fuel) ∧
    (∀ n s, NN (parse_variable_declaration fuel n s)) ∧
    NN (parse_function_expression fuel) ∧
    (∀ acc, NN (parse_params_loop fuel acc)) ∧
    (∀ acc, NN (parse_body_loop fuel acc)) ∧
    NN (parse_expression_statement fuel) ∧
    (∀ acc, NN (parse_program_loop fuel acc)) := by
  intro fuel
  induction fuel with
  | zero =>
      refine ⟨fun _ => ?_, fun _ _ => ?_, ?_, fun _ => ?_, fun _ _ _ => ?_, ?_, fun _ _ => ?_,
        fun _ => ?_, ?_, fun _ _ => ?_, ?_, fun _ => ?_, fun _ => ?_, ?_, fun _ => ?_⟩ <;>
        exact NN_outOfFuel
  | succ n ih =>
      obtain ⟨ih_pe, ih_loop, ih_ppf, ih_pre, ih_inf, ih_grp, ih_call, ih_args, ih_arg,
        ih_vd, ih_fe, ih_params, ih_body, ih_stmt, ih_prog⟩ := ih
      refine ⟨?_, ?_, ?_, ?_, ?_, ?_, ?_, ?_, ?_, ?_, ?_, ?_, ?_, ?_, ?_⟩
      -- parse_expression
      · intro pr
        simp only [parse_expression]
        exact NN_bind ih_ppf fun e => ih_loop pr e
      -- parse_expression_loop
      · intro pr ex
        simp only [parse_expression_loop]
        apply NN_bind NN_cur_precedence
        intro pr2
        apply NN_ite
        · apply NN_bind NN_peek_kind
          intro k
          cases k <;>
            first
              | exact NN_throwE (syntax_err_ne_NoToken _)
              | exact NN_Mpure _
              | exact NN_bind (ih_inf _ _ _) fun e2 => ih_loop _ _
        · exact NN_Mpure _
      -- prefix_parse_fn
      · simp only [prefix_parse_fn]
        apply NN_bind NN_peek_kind
        intro k
        cases k <;>
          first
            | exact NN_parse_int_literal
            | exact NN_parse_bool_literal
            | exact NN_parse_unit
            | exact ih_grp
            | exact ih_fe
            | exact ih_pre _
            | exact NN_throwE (by intro hh; cases hh)
            | (apply NN_bind NN_expect_ident
               rintro ⟨name, span⟩
               apply NN_bind NN_peek_kind
               intro k2
               cases k2 <;>
                 first
                   | exact ih_vd _ _
                   | exact ih_call _ _
                   | exact NN_parse_variable_ident _ _)
      -- parse_prefix_expression
      · intro op
        simp only [parse_prefix_expression]
        apply NN_bind (NN_expect_token _)
        intro sp
        exact NN_bind (ih_pe _) fun e => NN_pure _
      -- parse_infix_expression
      · intro l op pr
        simp only [parse_infix_expression]
        apply NN_bind NN_lexer_next
        intro _
        exact NN_bind (ih_pe _) fun rhs => NN_pure _
      -- parse_grouped_expression
      · simp only [parse_grouped_expression]
        apply NN_bind (NN_expect_token _)
        intro sp
        apply NN_bind (ih_pe _)
        intro e
        apply NN_bind NN_peek_kind
        intro k
        cases k <;>
          first
            | exact NN_bind (NN_expect_token _) fun sp2 => NN_pure _
            | exact NN_throwE (expected_ne_NoToken _ _)
      -- parse_function_call
      · intro nm s
        simp only [parse_function_call]
        apply NN_bind (NN_expect_token _)
        intro _
        apply NN_bind (ih_args _)
        intro args
        exact NN_bind (NN_expect_token _) fun es => NN_pure _
      -- parse_call_args
      · intro acc
        simp only [parse_call_args]
        apply NN_bind NN_peek_kind
        intro k
        apply NN_ite
        · exact NN_Mpure _
        · apply NN_bind ih_arg
          intro a
          apply NN_bind NN_peek_kind
          intro k2
          apply NN_ite
          · exact NN_bind (NN_expect_token _) fun _ => ih_args _
          · exact NN_Mpure _
      -- parse_function_argument
      · simp only [parse_function_argument]
        intro p e q h
        obtain ⟨src, lx⟩ := p
        cases lx with
        | nil =>
            injection h with h1 h2
            subst h1
            decide
        | cons tok ts =>
            refine (?_ : NN _) ⟨src, tok :: ts⟩ e q h
            apply NN_ite
            · apply NN_bind NN_expect_ident
              rintro ⟨name, sp⟩
              apply NN_bind NN_peek_kind
              intro k2
              apply NN_ite
              · exact NN_bind (NN_expect_token _) fun _ =>
                  NN_bind (ih_pe _) fun v => NN_pure _
              · exact NN_Mpure _
            · exact NN_bind (ih_pe _) fun v => NN_pure _
      -- parse_variable_declaration
      · intro nm s
        simp only [parse_variable_declaration]
        apply NN_bind (NN_expect_token _)
        intro _
        apply NN_bind NN_peek_kind
        intro k
        apply NN_bind
        · apply NN_ite
          · exact NN_bind NN_parse_type fun t => NN_Mpure _
          · exact NN_Mpure _
        · intro ty
          apply NN_bind NN_peek_kind
          intro k2
          cases k2 <;>
            first
              | exact NN_throwE (expected_ne_NoToken _ _)
              | exact NN_bind (NN_expect_token _) fun _ =>
                  NN_bind (ih_pe _) fun v => NN_pure _
      -- parse_function_expression
      · simp only [parse_function_expression]
        apply NN_bind (NN_expect_token _)
        intro start_span
        apply NN_bind (NN_expect_token _)
        intro _
        apply NN_bind (ih_params _)
        intro params
        apply NN_bind (NN_expect_token _)
        intro _
        apply NN_bind NN_peek_kind
        intro k
        apply NN_bind
        · cases k <;>
            first
              | exact NN_bind NN_parse_type fun t => NN_Mpure _
              | exact NN_Mpure _
        · intro rt
          apply NN_bind (NN_expect_token _)
          intro _
          apply NN_bind (ih_body _)
          intro body
          exact NN_bind (NN_expect_token _) fun es => NN_pure _
      -- parse_params_loop
      · intro acc
        simp only [parse_params_loop]
        apply NN_bind NN_peek_kind
        intro k
        apply NN_ite
        · exact NN_Mpure _
        · apply NN_bind NN_parse_function_parameter
          intro a
          apply NN_bind NN_peek_kind
          intro k2
          apply NN_ite
          · exact NN_bind (NN_expect_token _) fun _ => ih_params _
          · exact NN_Mpure _
      -- parse_body_loop
      · intro acc
        simp only [parse_body_loop]
        apply NN_bind NN_peek_kind
        intro k
        apply NN_ite
        · exact NN_Mpure _
        · exact NN_bind ih_stmt fun s => ih_body _
      -- parse_expression_statement
      · simp only [parse_expression_statement]
        apply NN_bind (ih_pe _)
        intro expr
        apply NN_bind NN_check_semicolon
        intro b
        apply NN_ite
        · exact NN_bind NN_lexer_next fun _ => NN_pure _
        · exact NN_pure _
      -- parse_program_loop
      · intro acc
        simp only [parse_program_loop]
        intro p e q h
        obtain ⟨src, lx⟩ := p
        cases lx with
        | nil => cases h
        | cons tok ts =>
            dsimp only at h
            exact NN_bind ih_stmt (fun s => ih_prog _) ⟨src, tok :: ts⟩ e q h

/-- C10: no parsing operation ever returns `Error::NoToken`: every failure
of `parse` carries one of the other error variants (`NoPrefixParseFn`,
`Expected`, `Syntax`, `UnexpectedEof`). -/
theorem parse_error_never_NoToken (fuel : Nat) (p q : Parser) (e : Error)
    (h : parse fuel p = .err e q) : e ≠ Error.NoToken :=
  (parser_never_NoToken fuel).2.2.2.2.2.2.2.2.2.2.2.2.2.2 [] p e q h

/-- Witness for `parse_error_never_NoToken`: parsing `"("` fails (the
grouped expression's inner parse hits end of input and reports
`NoPrefixParseFn(Eof)`), and that error is not `NoToken`. -/
theorem parse_error_never_NoToken_witness :
    parse 10 ⟨"(", [⟨.LParen, ⟨0, 1⟩⟩]⟩ =
      .err (Error.NoPrefixParseFn TokenKind.Eof) ⟨"(", []⟩ ∧
    Error.NoPrefixParseFn TokenKind.Eof ≠ Error.NoToken :=
  ⟨rfl, parse_error_never_NoToken 10 ⟨"(", [⟨.LParen, ⟨0, 1⟩⟩]⟩ ⟨"(", []⟩
    (Error.NoPrefixParseFn TokenKind.Eof) rfl⟩

end Lovely
